import Mathlib

/-!
Verification of the unit-system generation facility of `dimensioned`
(`src/make_units.rs`): type-level dimension-vector arithmetic
(`Mul`/`Div`/`Pow`/`Root`/`Recip` impls), the `FmtDim::fmt` formatting
routine, the `__make_base_types!` base-alias generation, the `unit!`
derived-unit expression grammar, and the `make_units!`/`make_units_adv!`
declaration matching.

Dimension vectors are embedded as lists of integer exponents (one per
base-unit slot, in declaration order).  A type-level operation that
fails to resolve (a Rust trait-resolution failure) is embedded as an
`Option` returning `none`.
-/

namespace Dimensioned

/-- Modelled from the spec: the type-level integer markers come from the
peano crate, which is not under `src/`.  Spec section 2 item 1 and the
design notes fix a closed symmetric range `-9..9` (the names `Z0`,
`P1..P9`, `N1..N9` imported at the top of `make_units_adv!` list exactly
these values).  A marker is represented by its integer value; validity is
membership in the range. -/
def inRange (e : Int) : Bool := (-9 ≤ e) && (e ≤ 9)

/-- Modelled from the spec: type-level `add(A,B) -> C` where C = A + B,
failing to resolve if the sum falls outside the representable range
(spec section 4.1). -/
def markerAdd (a b : Int) : Option Int :=
  if inRange (a + b) then some (a + b) else none

/-- Modelled from the spec: type-level `sub(A,B) -> C` where C = A - B,
failing to resolve outside the range (spec section 4.1). -/
def markerSub (a b : Int) : Option Int :=
  if inRange (a - b) then some (a - b) else none

/-- Modelled from the spec: type-level `neg(A) -> C` where C = -A
(spec section 4.1). -/
def markerNeg (a : Int) : Option Int :=
  if inRange (-a) then some (-a) else none

/-- Modelled from the spec: type-level `mul(A,B) -> C` where C = A * B,
failing to resolve outside the range (spec section 4.1). -/
def markerMul (a b : Int) : Option Int :=
  if inRange (a * b) then some (a * b) else none

/-- Modelled from the spec: type-level `div(A,B)` performs exact integer
division and fails to resolve (a compile-time type error) if A is not
evenly divisible by B, or the quotient leaves the range (spec section
4.1).  Division by zero never resolves. -/
def markerDiv (a b : Int) : Option Int :=
  if b != 0 && a % b == 0 && inRange (a / b) then some (a / b) else none

/-- Sequencing of a componentwise binary marker operation over two
dimension vectors of the same unit system; vectors of different arity
never arise at the type level (distinct `$System` types), embedded here
as `none`. -/
def zipM (f : Int → Int → Option Int) : List Int → List Int → Option (List Int)
  | [], [] => some []
  | a :: v, b :: w => do
      let c ← f a b
      let cs ← zipM f v w
      pure (c :: cs)
  | _, _ => none

/-- Sequencing of a componentwise unary marker operation over a
dimension vector. -/
def mapO (f : Int → Option Int) : List Int → Option (List Int)
  | [] => some []
  | a :: v => do
      let b ← f a
      let w ← mapO f v
      pure (b :: w)

/-- The `Mul` impl for `$System` (make_units.rs lines 144-152): output
type `$System<(<$Type as Add<$constant>>::Output)...>`, i.e. the
componentwise type-level sum of the two exponent vectors. -/
def combine (v w : List Int) : Option (List Int) := zipM markerAdd v w

/-- The `Div` impl for `$System` (make_units.rs lines 155-162):
componentwise type-level difference. -/
def divide (v w : List Int) : Option (List Int) := zipM markerSub v w

/-- The `Pow` impl for `$System` (make_units.rs lines 168-174): output
`$System<(<$Type as Mul<RHS>>::Output)...>`, each exponent multiplied by
the power `RHS`. -/
def pow (v : List Int) (r : Int) : Option (List Int) :=
  mapO (fun e => markerMul e r) v

/-- The `Root` impl for `$System` (make_units.rs lines 176-182): output
`$System<(<$Type as Div<RHS>>::Output)...>`, each exponent divided
exactly by the degree `RHS`.  Note the impl places no constraint on the
declared max-root `$Root` of any slot. -/
def root (v : List Int) (r : Int) : Option (List Int) :=
  mapO (fun e => markerDiv e r) v

/-- The `Recip` impl for `$System` (make_units.rs lines 184-188):
componentwise type-level negation. -/
def recip (v : List Int) : Option (List Int) := mapO markerNeg v

/-- The `$Unitless = $System` alias (make_units.rs line 227): all type
parameters take their default `Z0`, i.e. the all-zero exponent vector of
the system's arity. -/
def dimensionless (n : Nat) : List Int := List.replicate n 0

/-! Formatting (`FmtDim::fmt`, make_units.rs lines 190-225).  A slot is a
triple (allowed root `$Root::to_i32()`, exponent `$Type::to_i32()`, print
token `stringify!($print_as)`), listed in declaration order. -/

/-- Rounding of the rational `n / d` (with `d > 0`) to the nearest
integer, ties to even.  This embeds Rust's `{:.2}` formatting of
`exp as f32 / root as f32` after scaling by 100: for every exponent in
`-9..9` and root in `1..9` the f32 quotient is within `2^-20` of the
rational value while the nearest decimal-tie boundary is at distance at
least `1/1800` except at exact ties (denominators dividing 8, where the
f32 value is exact), so Rust's correctly-rounded decimal output agrees
with round-half-even on the rational. -/
def roundHalfEven (n d : Int) : Int :=
  let q := n / d
  let rem := n % d
  if 2 * rem < d then q
  else if d < 2 * rem then q + 1
  else if q % 2 == 0 then q else q + 1

/-- The decimal string Rust's `write!(f, "{:.2}", exp as f32 / root as f32)`
produces: sign, integer part, and exactly two fractional digits. -/
def twoDec (ex rt : Int) : String :=
  let s := roundHalfEven (100 * ex) rt
  let a := s.natAbs
  let ip := a / 100
  let fp := a % 100
  (if s < 0 then "-" else "") ++ toString ip ++ "." ++
    (if fp < 10 then "0" else "") ++ toString fp

/-- The per-slot output of the `match exp` arms (make_units.rs lines
211-221) for a nonzero exponent: bare token when `exp == root`,
`token^<exp/root>` when the integer remainder is zero, and otherwise
`token^<exp/root to two decimals>`. -/
def fmtTerm (rt ex : Int) (token : String) : String :=
  if ex == rt then token
  else if ex % rt == 0 then token ++ "^" ++ toString (ex / rt)
  else token ++ "^" ++ twoDec ex rt

/-- The loop body of `FmtDim::fmt` (make_units.rs lines 200-222): the
`first` flag is cleared on the first iteration unconditionally; on later
iterations a `*` is written whenever the exponent is nonzero; then the
`match exp` arms write nothing for exponent 0 and `fmtTerm` otherwise. -/
def fmtDimAux : Bool → List (Int × Int × String) → String
  | _, [] => ""
  | first, (rt, ex, token) :: rest =>
      (if first then "" else if ex != 0 then "*" else "") ++
      (if ex == 0 then "" else fmtTerm rt ex token) ++
      fmtDimAux false rest

/-- `FmtDim::fmt` for a generated system: iterate over
`allowed_roots.iter().zip(exponents.iter()).zip(print_tokens.iter())`
with `first` initially `true`. -/
def fmtDim (slots : List (Int × Int × String)) : String := fmtDimAux true slots

/-! The `unit!` macro (make_units.rs lines 308-314). -/

/-- The two operators the `unit!` expression grammar supports. -/
inductive Op where
  | mul
  | div
deriving DecidableEq

/-- Application of one `unit!` operator: `*` is the system's `Mul`
(componentwise add), `/` its `Div` (componentwise subtract). -/
def applyOp : Op → List Int → List Int → Option (List Int)
  | Op.mul, a, b => combine a b
  | Op.div, a, b => divide a b

/-- The `unit!` macro resolution of a chain `U0 op1 U1 op2 U2 ...`
(make_units.rs lines 309-314): the rules `{$LHS:tt * $($RHS:tt)+}` and
`{$LHS:tt / $($RHS:tt)+}` split the token stream at the FIRST operator,
take `$LHS` to be the single leading token tree, recurse on the whole
remainder, and then apply `Mul`/`Div` of the head against that result.
The chain is represented as a head unit and the list of
(operator, unit) pairs following it. -/
def unitResolve : List Int → List (Op × List Int) → Option (List Int)
  | lhs, [] => some lhs
  | lhs, (op, u) :: rest => do
      let rhs ← unitResolve u rest
      applyOp op lhs rhs

/-- Follows the claim's words (spec section 4.3 (d)): a `unit!` chain
resolved LEFT-associatively, folding each operator onto the accumulated
left operand.  Stated for comparison with `unitResolve`. -/
def unitResolveLeftAssoc : List Int → List (Op × List Int) → Option (List Int)
  | lhs, [] => some lhs
  | lhs, (op, u) :: rest => do
      let x ← applyOp op lhs u
      unitResolveLeftAssoc x rest

/-! Base-unit type aliases (`__make_base_types!`, make_units.rs lines
270-279) and the macro entry points. -/

/-- The recursion of `__make_base_types!`: each step emits
`pub type $Type = $System<$($Zeros,)* $Root>;` — the accumulated zero
markers followed by this unit's max-root — and recurses with one more
`Z0` pushed onto the accumulator. -/
def makeBaseTypesAux (zeros : List Int) : List Int → List (List Int)
  | [] => []
  | r :: rs => (zeros ++ [r]) :: makeBaseTypesAux (0 :: zeros) rs

/-- The emitted alias `$System<$($Zeros,)* $Root>` names fewer type
arguments than the system's arity; the remaining parameters take their
declared default `Z0` (make_units.rs line 136).  Padding restores the
full arity-`n` exponent vector. -/
def padDefaults (n : Nat) (v : List Int) : List Int :=
  v ++ List.replicate (n - v.length) 0

/-- The full list of base-unit alias vectors generated by
`__make_base_types!($System, $($Type, $Root),+ |)` for a system of arity
`n = roots.length`, in declaration order. -/
def makeBaseTypes (roots : List Int) : List (List Int) :=
  (makeBaseTypesAux [] roots).map (padDefaults roots.length)

/-- One base-unit line of a declaration: max-root marker, unit type
name, constant name, print token (make_units.rs line 122). -/
structure BaseUnit where
  maxRoot : Int
  typeName : String
  constName : String
  printAs : String

/-- A unit-system declaration as consumed by `make_units_adv!`
(make_units.rs lines 120-126); derived lines are kept abstract as
(constant name, type name, expression) triples. -/
structure SystemDecl where
  system : String
  unitless : String
  one : String
  base : List BaseUnit
  derived : List (String × String × (List Int × List (Op × List Int)))

/-- Whether `make_units_adv!` matches a declaration: the base block
pattern `$($Root:ident, $Type:ident, $constant:ident, $print_as:ident;)+`
uses the one-or-more repetition `+`, so a declaration with an empty base
block matches no rule and the macro fails to expand. -/
def makeUnitsAdvMatches (d : SystemDecl) : Bool := !d.base.isEmpty

/-- Whether `make_units!` matches a declaration: its base pattern
`$($Type:ident, $constant:ident, $print_as:ident;)+` (make_units.rs line
51) likewise requires at least one base line, and on a match it forwards
to `make_units_adv!` with every max-root set to `P1`. -/
def makeUnitsMatches (d : SystemDecl) : Bool := !d.base.isEmpty

/-! Runtime behaviour of the generated arithmetic methods.  Every value
level body in the `Mul`/`Div`/`Pow`/`Root`/`Recip` impls is
`unreachable!()`, a diverging panic; the embedding distinguishes a panic
from a returned value. -/

/-- Result of running a generated method body: either a panic (the
embedding of `unreachable!()`) or a normally returned value. -/
inductive RunResult (α : Type) where
  | panics
  | value (x : α)
deriving DecidableEq

/-- Runtime body of `fn mul` (make_units.rs line 151): `unreachable!()`. -/
def mulRun (_v _w : List Int) : RunResult (List Int) := RunResult.panics

/-- Runtime body of `fn div` (make_units.rs line 161): `unreachable!()`. -/
def divRun (_v _w : List Int) : RunResult (List Int) := RunResult.panics

/-- Runtime body of `fn pow` (make_units.rs line 173): `unreachable!()`. -/
def powRun (_v : List Int) (_r : Int) : RunResult (List Int) := RunResult.panics

/-- Runtime body of `fn root` (make_units.rs line 181): `unreachable!()`. -/
def rootRun (_v : List Int) (_r : Int) : RunResult (List Int) := RunResult.panics

/-- Runtime body of `fn recip` (make_units.rs line 187): `unreachable!()`. -/
def recipRun (_v : List Int) : RunResult (List Int) := RunResult.panics

/-- Follows the claim's words (spec section 4.2, root extraction): each
slot's declared maximum-root accommodates a root of degree `r`.  Stated
for comparison with what the `Root` impl actually requires. -/
def maxRootAccommodates (declaredRoots : List Int) (r : Int) : Bool :=
  declaredRoots.all (fun m => r ≤ m)

/-! Helper lemmas. -/

theorem makeBaseTypesAux_length (zs rs : List Int) :
    (makeBaseTypesAux zs rs).length = rs.length := by
  induction rs generalizing zs with
  | nil => rfl
  | cons r rs ih => simp [makeBaseTypesAux, ih]

theorem getD_replicate_zero (m j : Nat) : (List.replicate m (0:Int)).getD j 0 = 0 := by
  induction m generalizing j with
  | zero => simp
  | succ m ih => cases j with
      | zero => simp [List.replicate_succ]
      | succ j => simp [List.replicate_succ, ih]

theorem makeBaseTypesAux_getD (rs : List Int) :
    ∀ (k i : Nat), i < rs.length →
      (makeBaseTypesAux (List.replicate k 0) rs).getD i [] =
        List.replicate (k + i) 0 ++ [rs.getD i 0] := by
  induction rs with
  | nil => intro k i h; simp at h
  | cons r rs ih =>
      intro k i h
      cases i with
      | zero => simp [makeBaseTypesAux]
      | succ i =>
          have h' : i < rs.length := by simpa using h
          have heq : (0 :: List.replicate k (0:Int)) = List.replicate (k+1) 0 :=
            (List.replicate_succ 0 k).symm
          simp only [makeBaseTypesAux, List.getD_cons_succ, heq, ih (k+1) i h']
          congr 2
          omega

/-! Claim theorems. -/

/-- C1: the claim states the formatter prints nothing for zero-exponent
slots, exactly one `*` between consecutive printed nonzero terms with no
leading or trailing `*`, and the empty string for the all-zero vector.
The code clears the `first` flag on the first slot even when that slot
prints nothing, so any vector whose first nonzero exponent is not in
slot 0 is formatted with a leading `*`: in the documented Fruit system
the lone unit `banana` (exponents (0,1,0,0,0)) formats as `*b`.  The
other two conjuncts show the doc-example vector and the all-zero vector,
on which the code agrees with the claim. -/
theorem fmt_first_flag_bug :
    fmtDim [(1,0,"a"),(1,1,"b"),(1,0,"c"),(1,0,"m"),(1,0,"w")] = "*b" ∧
    fmtDim [(1,1,"a"),(1,1,"b"),(1,0,"c"),(1,2,"m"),(1,1,"w")] = "a*b*m^2*w" ∧
    fmtDim [(1,0,"a"),(1,0,"b"),(1,0,"c"),(1,0,"m"),(1,0,"w")] = "" := by
  refine ⟨by decide, by decide, by decide⟩

/-- C2 counterexample: the claim says a chain `A op1 B op2 C` resolves
left-associatively to `(A op1 B) op2 C`.  For `Meter / Second * Second`
(Meter = (1,0), Second = (0,1)) the left-associative reading gives back
Meter = (1,0), but `unit!` splits at the first operator and recurses on
the right, yielding `Meter / (Second * Second)` = (1,-2). -/
theorem unit_chain_not_left_assoc :
    unitResolve [1,0] [(Op.div,[0,1]),(Op.mul,[0,1])] = some [1,-2] ∧
    unitResolveLeftAssoc [1,0] [(Op.div,[0,1]),(Op.mul,[0,1])] = some [1,0] ∧
    some ([1,-2] : List Int) ≠ some [1,0] := by
  refine ⟨by decide, by decide, by decide⟩

/-- C2 amended: a `unit!` chain `A op1 B op2 C` is resolved
right-associatively: it yields `A op1 (B op2 C)`, where `*` is the
componentwise add and `/` the componentwise subtract of exponent
vectors. -/
theorem unit_chain_right_assoc (a b c : List Int) (op1 op2 : Op) :
    unitResolve a [(op1,b),(op2,c)] =
      (applyOp op2 b c).bind (fun rhs => applyOp op1 a rhs) := by
  simp [unitResolve]

/-- C3 counterexample: the claim says root extraction fails to resolve
unless each component's declared maximum-root accommodates the needed
division.  The `Root` impl places no constraint on the declared
max-roots: in a system declared with max-root 1 (every `make_units!`
system), the square root of the exponent-2 vector resolves to the
exponent-1 vector even though degree 2 exceeds the declared max-root
1. -/
theorem root_resolves_despite_max_root :
    root [2] 2 = some [1] ∧ maxRootAccommodates [1] 2 = false := by
  refine ⟨by decide, by decide⟩

/-- C3 amended: root extraction by degree `r` resolves exactly when
every component resolves under the type-level exact division (`r`
nonzero, the exponent evenly divisible by `r`, the quotient in range),
and then yields the componentwise exact quotients; the slots' declared
maximum-roots play no role in whether `root` resolves. -/
theorem root_componentwise_exact_div (v : List Int) (r : Int) :
    root v r = (if v.all (fun e => (markerDiv e r).isSome)
                then some (v.map (fun e => e / r)) else none) := by
  induction v with
  | nil => rfl
  | cons a v ih =>
      simp only [root, mapO] at *
      cases h : markerDiv a r with
      | none => simp [List.all_cons, h]
      | some b =>
          have hb : b = a / r := by
            simp [markerDiv] at h
            exact h.2.symm
          simp [List.all_cons, h, hb, ih]
          split <;> simp

/-- C4: for two exponent vectors of the same system whose componentwise
sums all lie in the marker range, the `Mul` impl resolves to the vector
of componentwise sums, and resolving in the other operand order gives
the same type. -/
theorem combine_componentwise_add_comm (v w : List Int)
    (h : List.Forall₂ (fun a b => inRange (a + b) = true) v w) :
    combine v w = some (List.zipWith (· + ·) v w) ∧ combine v w = combine w v := by
  induction h with
  | nil => exact ⟨rfl, rfl⟩
  | cons ha hrest ih =>
      have h1 := ih.1
      have h2 := ih.2
      simp only [combine] at h1 h2
      constructor
      · simp [combine, zipM, markerAdd, ha, h1]
      · have hcomm : ∀ x y : Int, markerAdd x y = markerAdd y x := by
          intro x y; simp [markerAdd, Int.add_comm]
        simp [combine, zipM, hcomm, h2]

/-- C4 witness: combining (1,2) with (3,-5) gives the componentwise sums
(4,-3) and agrees with combining in the other order. -/
theorem combine_componentwise_add_comm_witness :
    combine [1,2] [3,-5] = some (List.zipWith (· + ·) [1,2] [3,-5]) ∧
    combine [1,2] [3,-5] = combine [3,-5] [1,2] :=
  combine_componentwise_add_comm [1,2] [3,-5] (by decide)

/-- C5: a slot with nonzero exponent `ex`, declared max-root `rt ≥ 1`
and token `t` formats as the bare token when `ex = rt`; as
`t^<integer quotient>` when `ex ≠ rt` and `rt` divides `ex` evenly; and
otherwise as `t^<ex/rt to exactly two decimal places>`, with exponent 1
at allowance 2 giving the digits `0.50`. -/
theorem fmt_term_three_cases (rt ex : Int) (token : String)
    (_hex : ex ≠ 0) (_hrt : 1 ≤ rt) :
    (ex = rt → fmtTerm rt ex token = token) ∧
    (ex ≠ rt → rt ∣ ex → fmtTerm rt ex token = token ++ "^" ++ toString (ex / rt)) ∧
    (¬ rt ∣ ex → fmtTerm rt ex token = token ++ "^" ++ twoDec ex rt) ∧
    twoDec 1 2 = "0.50" := by
  refine ⟨?_, ?_, ?_, by decide⟩
  · intro h; subst h; simp [fmtTerm]
  · intro hne hdvd
    have hmod : ex % rt = 0 := Int.emod_eq_zero_of_dvd hdvd
    simp [fmtTerm, hne, hmod]
  · intro hndvd
    have hne : ex ≠ rt := fun h => hndvd (h ▸ dvd_refl rt)
    have hmod : ex % rt ≠ 0 := fun h => hndvd (Int.dvd_of_emod_eq_zero h)
    simp [fmtTerm, hne, hmod]

/-- C5 witness: with max-root 2 and token `cm`, exponent 1 formats as
`cm^0.50`, exponent 2 as the bare `cm`, and exponent 4 as `cm^2`. -/
theorem fmt_term_three_cases_witness :
    fmtTerm 2 1 "cm" = "cm" ++ "^" ++ twoDec 1 2 ∧ twoDec 1 2 = "0.50" ∧
    fmtTerm 2 2 "cm" = "cm" ∧
    fmtTerm 2 4 "cm" = "cm" ++ "^" ++ toString ((4:Int) / 2) := by
  have h1 := fmt_term_three_cases 2 1 "cm" (by decide) (by decide)
  have h2 := fmt_term_three_cases 2 2 "cm" (by decide) (by decide)
  have h3 := fmt_term_three_cases 2 4 "cm" (by decide) (by decide)
  exact ⟨h1.2.2.1 (by decide), h1.2.2.2, h2.1 rfl, h3.2.1 (by decide) (by decide)⟩

/-- C6: the generated base-unit alias list has one vector per base unit,
and the alias for unit `i` carries that unit's declared max-root in slot
`i` and zero in every other slot. -/
theorem base_alias_single_slot (roots : List Int) (i j : Nat)
    (hi : i < roots.length) (_hj : j < roots.length) :
    (makeBaseTypes roots).length = roots.length ∧
    ((makeBaseTypes roots).getD i []).getD j 0 =
      (if j = i then roots.getD i 0 else 0) := by
  have hlen : (makeBaseTypes roots).length = roots.length := by
    simp [makeBaseTypes, makeBaseTypesAux_length]
  refine ⟨hlen, ?_⟩
  have hi' : i < (makeBaseTypesAux [] roots).length := by
    rw [makeBaseTypesAux_length]; exact hi
  have hmap : (makeBaseTypes roots).getD i [] =
      padDefaults roots.length ((makeBaseTypesAux [] roots).getD i []) := by
    rw [makeBaseTypes,
        List.getD_eq_getElem _ _ (by simpa [makeBaseTypes, makeBaseTypesAux_length] using hi),
        List.getElem_map, List.getD_eq_getElem _ _ hi']
  have haux := makeBaseTypesAux_getD roots 0 i hi
  simp only [List.replicate_zero, Nat.zero_add] at haux
  rw [hmap, haux]
  have hlen2 : (List.replicate i (0:Int) ++ [roots.getD i 0]).length = i + 1 := by simp
  rw [padDefaults, hlen2]
  rcases Nat.lt_trichotomy j i with hlt | heq | hgt
  · rw [List.getD_append _ _ _ _ (by simp; omega), List.getD_append _ _ _ _ (by simp [hlt]),
        getD_replicate_zero]
    simp [Nat.ne_of_lt hlt]
  · subst heq
    rw [List.getD_append _ _ _ _ (by simp), List.getD_append_right _ _ _ _ (by simp)]
    simp
  · rw [List.getD_append_right _ _ _ _ (by simp; omega), getD_replicate_zero]
    simp [Nat.ne_of_gt hgt]

/-- C6 witness: for declared max-roots (2,2,1) (the CGS example), the
alias list has three entries and the second alias carries 2 in slot 1. -/
theorem base_alias_single_slot_witness :
    (makeBaseTypes [2,2,1]).length = ([2,2,1] : List Int).length ∧
    ((makeBaseTypes [2,2,1]).getD 1 []).getD 1 0 =
      (if 1 = 1 then ([2,2,1] : List Int).getD 1 0 else 0) :=
  base_alias_single_slot [2,2,1] 1 1 (by decide) (by decide)

/-- C7: for a valid vector whose exponents are all divisible by a
nonzero degree `r` and whose scaled exponents stay in range, taking the
`r`-th root of the `r`-th power gives back the original vector. -/
theorem root_pow_roundtrip (v : List Int) (r : Int)
    (hr : r ≠ 0)
    (hval : ∀ e ∈ v, inRange e = true)
    (_hdvd : ∀ e ∈ v, r ∣ e)
    (hscale : ∀ e ∈ v, inRange (e * r) = true) :
    (pow v r).bind (fun w => root w r) = some v := by
  induction v with
  | nil => simp [pow, root, mapO]
  | cons a v ih =>
      have ha : inRange (a * r) = true := hscale a (by simp)
      have hia : inRange a = true := hval a (by simp)
      have ih2 := ih (fun e he => hval e (by simp [he]))
        (fun e he => _hdvd e (by simp [he])) (fun e he => hscale e (by simp [he]))
      obtain ⟨w, hw, hroot⟩ : ∃ w, pow v r = some w ∧ root w r = some v := by
        cases hp : pow v r with
        | none => rw [hp] at ih2; simp at ih2
        | some w => rw [hp] at ih2; simp at ih2; exact ⟨w, rfl, ih2⟩
      have hdiv : markerDiv (a * r) r = some a := by
        simp [markerDiv, hr, Int.mul_ediv_cancel a hr, hia]
      have hma : markerMul a r = some (a * r) := by simp [markerMul, ha]
      have hp' : mapO (fun e => markerMul e r) v = some w := by simpa [pow] using hw
      have hroot' : mapO (fun e => markerDiv e r) w = some v := by simpa [root] using hroot
      simp [pow, root, mapO, hma, hp', hdiv, hroot']

/-- C7 witness: squaring (2,-4) gives (4,-8) and its square root is
(2,-4) again. -/
theorem root_pow_roundtrip_witness :
    (pow [2,-4] 2).bind (fun w => root w 2) = some [2,-4] :=
  root_pow_roundtrip [2,-4] 2 (by decide) (by decide) (by decide) (by decide)

/-- C8: combining a valid vector with its reciprocal (componentwise
negation) resolves and yields the system's distinguished all-zero
dimensionless vector. -/
theorem combine_recip_dimensionless (v : List Int)
    (hval : ∀ e ∈ v, inRange e = true) :
    (recip v).bind (fun w => combine v w) = some (dimensionless v.length) := by
  induction v with
  | nil => simp [recip, mapO, combine, zipM, dimensionless]
  | cons a v ih =>
      have hia : inRange a = true := hval a (by simp)
      have hneg : inRange (-a) = true := by simp [inRange] at hia ⊢; omega
      have ih2 := ih (fun e he => hval e (by simp [he]))
      obtain ⟨w, hw, hcomb⟩ :
          ∃ w, recip v = some w ∧ combine v w = some (dimensionless v.length) := by
        cases hp : recip v with
        | none => rw [hp] at ih2; simp at ih2
        | some w => rw [hp] at ih2; simp at ih2; exact ⟨w, rfl, ih2⟩
      have hneg' : markerNeg a = some (-a) := by simp [markerNeg, hneg]
      have hw' : mapO markerNeg v = some w := by simpa [recip] using hw
      have hadd : markerAdd a (-a) = some 0 := by simp [markerAdd, inRange]
      have hcomb' : zipM markerAdd v w = some (dimensionless v.length) := by
        simpa [combine] using hcomb
      simp [recip, mapO, combine, zipM, hneg', hw', hadd, hcomb', dimensionless,
        List.replicate]

/-- C8 witness: (3,-5) combined with its reciprocal (-3,5) gives the
all-zero two-slot vector. -/
theorem combine_recip_dimensionless_witness :
    (recip [3,-5]).bind (fun w => combine [3,-5] w) =
      some (dimensionless ([3,-5] : List Int).length) :=
  combine_recip_dimensionless [3,-5] (by decide)

/-- C9: a declaration whose base block is empty matches neither
`make_units!` nor `make_units_adv!` (their base patterns use the
one-or-more repetition), so it is rejected at expansion time rather than
accepted as a dimensionless-only system. -/
theorem empty_base_not_matched (d : SystemDecl) (h : d.base = []) :
    makeUnitsMatches d = false ∧ makeUnitsAdvMatches d = false := by
  simp [makeUnitsMatches, makeUnitsAdvMatches, h]

/-- C9 witness: the concrete declaration with no base lines is rejected
by both macros. -/
theorem empty_base_not_matched_witness :
    makeUnitsMatches ⟨"Fruit", "Unitless", "one", [], []⟩ = false ∧
    makeUnitsAdvMatches ⟨"Fruit", "Unitless", "one", [], []⟩ = false :=
  empty_base_not_matched ⟨"Fruit", "Unitless", "one", [], []⟩ rfl

/-- C10: every runtime invocation of the generated `mul`, `div`, `pow`,
`root` and `recip` method bodies panics (`unreachable!()`) and never
returns a value: the dimension arithmetic exists only at the type
level. -/
theorem runtime_dim_methods_diverge (v w : List Int) (r : Int) :
    (mulRun v w = RunResult.panics ∧ divRun v w = RunResult.panics ∧
     powRun v r = RunResult.panics ∧ rootRun v r = RunResult.panics ∧
     recipRun v = RunResult.panics) ∧
    ∀ x : List Int, mulRun v w ≠ RunResult.value x ∧ divRun v w ≠ RunResult.value x ∧
      powRun v r ≠ RunResult.value x ∧ rootRun v r ≠ RunResult.value x ∧
      recipRun v ≠ RunResult.value x := by
  refine ⟨⟨rfl, rfl, rfl, rfl, rfl⟩, fun x => ⟨?_, ?_, ?_, ?_, ?_⟩⟩ <;>
    intro h <;> exact RunResult.noConfusion h

end Dimensioned
